import Mathlib

/-
Shallow embedding of the two WebRTC signaling servers of this repository:
  src/Webcam Screen By WebRTC/server.py  (the "WS" definitions below)
  src/webrtc-live/server.py              (the "WL" definitions below)
The aiortc/aiohttp library calls made by the handlers are modelled through an
oracle structure `LibEnv`; the own code of the repository (handler control
flow, the pcs registry, the publisher track cache, the ICE cleanup hooks, the
shutdown hook and the DownscaleTrack resize step) is transcribed directly.
Connections are identified by the order of their creation (a fresh natural
number per RTCPeerConnection constructed), which models Python object
identity for the `is` comparison and set membership used by the source.
-/

/-- Media track kinds, the values taken by track.kind in the source. -/
inductive TrackKind
  | video
  | audio
deriving DecidableEq

/-- A media track received from a remote peer. `owner` is ghost information
recording which connection delivered the track, and `tid` distinguishes
distinct track objects; neither is inspected by the embedded handler code. -/
structure Track where
  tid : Nat
  owner : Nat
  kind : TrackKind
deriving DecidableEq

/-- A track object passed to pc.addTrack by the handlers: a DownscaleTrack
wrapper around a source track (Webcam Screen video), a raw stored track
(Webcam Screen audio), or a MediaRelay subscription (webrtc-live). -/
inductive SentTrack
  | down (source : Track) (w h : Nat)
  | plain (t : Track)
  | relayed (t : Track)
deriving DecidableEq

/-- ICE connection states observed by the iceconnectionstatechange hooks. -/
inductive IceState
  | stNew
  | checking
  | connected
  | completed
  | failed
  | disconnected
  | closed
deriving DecidableEq

/-- Membership of the ICE state in the cleanup tuple: Webcam Screen tests
("failed", "closed", "disconnected") and webrtc-live tests
("failed", "disconnected", "closed"); both denote this same set. -/
def IceState.isBad : IceState → Bool
  | .failed => true
  | .disconnected => true
  | .closed => true
  | _ => false

/-- Exceptions that can surface to the HTTP layer from a handler. -/
inductive Exc
  | keyError (key : String)
  | libError (code : Nat) (msg : String)
deriving DecidableEq

/-- An SDP session description, as built by RTCSessionDescription and as held
in pc.localDescription. -/
structure SessionDesc where
  sdp : String
  type : String
deriving DecidableEq

/-- The result a handler hands to aiohttp: either web.json_response with a
status and the JSON object fields, or an uncaught exception. -/
inductive HandlerResult
  | resp (status : Nat) (fields : List (String × String))
  | exc (e : Exc)
deriving DecidableEq

/-- Oracle for the wrapped library calls a handler performs. Each awaited
call may raise; `remoteTracks` lists the (tid, kind) pairs of the tracks the
library delivers to the registered "track" handler during a successful
setRemoteDescription. `setLocal` returns the value of pc.localDescription
after setLocalDescription completes. -/
structure LibEnv where
  jsonBody : Except Exc (List (String × String))
  mkDesc : String → String → Except Exc SessionDesc
  setRemote : Nat → SessionDesc → Except Exc Unit
  remoteTracks : List (Nat × TrackKind)
  createAnswer : Nat → Except Exc SessionDesc
  setLocal : Nat → SessionDesc → Except Exc SessionDesc
  addTrack : Nat → SentTrack → Except Exc Unit

/-- Subscripting params["k"] on the parsed JSON body: a missing key raises
KeyError, exactly as the Python dict access does. -/
def getKey (params : List (String × String)) (k : String) : Except Exc String :=
  match params.lookup k with
  | some v => Except.ok v
  | none => Except.error (Exc.keyError k)

/-- State of the Webcam Screen server: the pcs set, the publisher cache
dictionary `state`, and ghost bookkeeping. `nextId` allocates connection
identities; `cleaned` records connections whose cleanup hook ran on a bad ICE
state; `closeCalls` records connections close() was invoked on; `received`
lists delivered publisher tracks most recent first; `pubLog` lists publisher
connections most recent first; `addedLog` records the pc.addTrack calls. -/
structure WSState where
  pcs : List Nat
  publisher_pc : Option Nat
  publisher_video : Option Track
  publisher_audio : Option Track
  nextId : Nat
  cleaned : List Nat
  closeCalls : List Nat
  received : List Track
  pubLog : List Nat
  addedLog : List (Nat × SentTrack)
deriving DecidableEq

/-- Initial Webcam Screen state: pcs = set(), all publisher slots None. -/
def initWS : WSState :=
  { pcs := [], publisher_pc := none, publisher_video := none,
    publisher_audio := none, nextId := 0, cleaned := [], closeCalls := [],
    received := [], pubLog := [], addedLog := [] }

/-- The on_track handler of publisher_offer: stores the incoming track into
the slot of its kind, overwriting any previous value. Also records the track
in the ghost `received` log. -/
def onTrackWS (pc : Nat) (s : WSState) (tk : Nat × TrackKind) : WSState :=
  let t : Track := ⟨tk.1, pc, tk.2⟩
  let s1 := { s with received := t :: s.received }
  match t.kind with
  | .video => { s1 with publisher_video := some t }
  | .audio => { s1 with publisher_audio := some t }

/-- Creation of a fresh RTCPeerConnection followed by pcs.add(pc). -/
def addPc (s : WSState) : WSState :=
  { s with pcs := s.nextId :: s.pcs, nextId := s.nextId + 1 }

/-- The final lines of publisher_offer: state["publisher_pc"] = pc, plus the
ghost publisher log. -/
def setPub (s : WSState) (pc : Nat) : WSState :=
  { s with publisher_pc := some pc, pubLog := pc :: s.pubLog }

/-- Appending one pc.addTrack call to the ghost log. -/
def logAdd (s : WSState) (e : Nat × SentTrack) : WSState :=
  { s with addedLog := e :: s.addedLog }

/-- The publisher_offer handler of the Webcam Screen server, lines 42-72 of
its server.py, with every awaited library call routed through `env`. -/
def publisher_offer (env : LibEnv) (s : WSState) : HandlerResult × WSState :=
  match env.jsonBody with
  | .error e => (.exc e, s)
  | .ok params =>
    match getKey params "sdp" with
    | .error e => (.exc e, s)
    | .ok osdp =>
      match getKey params "type" with
      | .error e => (.exc e, s)
      | .ok otype =>
        match env.mkDesc osdp otype with
        | .error e => (.exc e, s)
        | .ok offer =>
          let pc := s.nextId
          let s1 := addPc s
          match env.setRemote pc offer with
          | .error e => (.exc e, s1)
          | .ok _ =>
            let s2 := env.remoteTracks.foldl (onTrackWS pc) s1
            match env.createAnswer pc with
            | .error e => (.exc e, s2)
            | .ok answer =>
              match env.setLocal pc answer with
              | .error e => (.exc e, s2)
              | .ok ld =>
                (.resp 200 [("sdp", ld.sdp), ("type", ld.type)], setPub s2 pc)

/-- The resolution table of viewer_offer: sizes = {"1080": ..., "720": ...,
"480": ...}. -/
def sizes : List (String × (Nat × Nat)) :=
  [("1080", (1920, 1080)), ("720", (1280, 720)), ("480", (854, 480))]

/-- The first two lines of viewer_offer: res = request.query.get("res",
"720"); w, h = sizes.get(res, (1280, 720)). -/
def viewerSize (q : Option String) : Nat × Nat :=
  let res := q.getD "720"
  (sizes.lookup res).getD (1280, 720)

/-- Shared tail of the viewer handlers: await pc.createAnswer(), await
pc.setLocalDescription(answer), return the JSON response built from
pc.localDescription. The state is not modified by these lines. -/
def answerAndRespond {σ : Type} (env : LibEnv) (pc : Nat) (s : σ) :
    HandlerResult × σ :=
  match env.createAnswer pc with
  | .error e => (.exc e, s)
  | .ok answer =>
    match env.setLocal pc answer with
    | .error e => (.exc e, s)
    | .ok ld => (.resp 200 [("sdp", ld.sdp), ("type", ld.type)], s)

/-- The viewer_offer handler of the Webcam Screen server, lines 74-110 of
its server.py. The 409 branch runs before the body is read; afterwards the
handler creates a connection, adds a DownscaleTrack around the stored
publisher video, adds the stored publisher audio when present, and completes
the SDP exchange. -/
def viewer_offer (res : Option String) (env : LibEnv) (s : WSState) :
    HandlerResult × WSState :=
  let wh := viewerSize res
  match s.publisher_video with
  | none => (.resp 409 [("error", "No publisher connected")], s)
  | some v =>
    match env.jsonBody with
    | .error e => (.exc e, s)
    | .ok params =>
      match getKey params "sdp" with
      | .error e => (.exc e, s)
      | .ok osdp =>
        match getKey params "type" with
        | .error e => (.exc e, s)
        | .ok otype =>
          match env.mkDesc osdp otype with
          | .error e => (.exc e, s)
          | .ok offer =>
            let pc := s.nextId
            let s1 := addPc s
            let down := SentTrack.down v wh.1 wh.2
            match env.setRemote pc offer with
            | .error e => (.exc e, s1)
            | .ok _ =>
              match env.addTrack pc down with
              | .error e => (.exc e, s1)
              | .ok _ =>
                let s2 := logAdd s1 (pc, down)
                match s.publisher_audio with
                | some a =>
                  match env.addTrack pc (SentTrack.plain a) with
                  | .error e => (.exc e, s2)
                  | .ok _ => answerAndRespond env pc (logAdd s2 (pc, SentTrack.plain a))
                | none => answerAndRespond env pc s2

/-- The pcs.discard(pc) line of the Webcam Screen ICE hook, with its ghost
record of the cleanup. -/
def wsIceCore (s : WSState) (p : Nat) : WSState :=
  { s with pcs := s.pcs.filter (fun q => q != p),
           cleaned := p :: s.cleaned }

/-- The iceconnectionstatechange hook of the Webcam Screen server. The hook
is a closure over a connection created by a handler, so it can only fire for
an already allocated identity; the outer guard encodes that. On a bad state
it removes the connection from pcs and, when the connection is identically
the stored publisher_pc, clears the publisher cache. The hook registered for
viewer connections omits the publisher clause, which is equivalent here
because a viewer connection is never the stored publisher_pc. -/
def wsIce (s : WSState) (p : Nat) (st : IceState) : WSState :=
  if p < s.nextId then
    if st.isBad then
      if (wsIceCore s p).publisher_pc = some p then
        { wsIceCore s p with publisher_pc := none, publisher_video := none,
                             publisher_audio := none }
      else wsIceCore s p
    else s
  else s

/-- The on_shutdown hook of the Webcam Screen server: pc.close() for every
member of pcs; the set itself is not cleared by this server. -/
def wsShutdown (s : WSState) : WSState :=
  { s with closeCalls := s.pcs ++ s.closeCalls }

/-- An invocation of one of the operations of the Webcam Screen server. -/
inductive WSEvent
  | pub (env : LibEnv)
  | view (res : Option String) (env : LibEnv)
  | ice (p : Nat) (st : IceState)
  | shutdown

/-- One step of the Webcam Screen server. -/
def wsStep (s : WSState) (e : WSEvent) : WSState :=
  match e with
  | .pub env => (publisher_offer env s).2
  | .view res env => (viewer_offer res env s).2
  | .ice p st => wsIce s p st
  | .shutdown => wsShutdown s

/-- Execution of a sequence of operations of the Webcam Screen server. -/
def wsRun (s : WSState) (es : List WSEvent) : WSState :=
  es.foldl wsStep s

/-- State of the webrtc-live server: the pcs set and the broadcaster_tracks
dictionary, whose only possible keys are the track kinds "video" and "audio",
represented by the two slots `bvideo` and `baudio`. The remaining fields are
ghost bookkeeping as in `WSState`. -/
structure WLState where
  pcs : List Nat
  bvideo : Option Track
  baudio : Option Track
  nextId : Nat
  cleaned : List Nat
  closeCalls : List Nat
  received : List Track
  addedLog : List (Nat × SentTrack)
deriving DecidableEq

/-- Initial webrtc-live state: pcs = set(), broadcaster_tracks = {}. -/
def initWL : WLState :=
  { pcs := [], bvideo := none, baudio := none, nextId := 0, cleaned := [],
    closeCalls := [], received := [], addedLog := [] }

/-- The on_track handler of the broadcaster branch:
broadcaster_tracks[track.kind] = track, plus the ghost received log. -/
def wlOnTrack (pc : Nat) (s : WLState) (tk : Nat × TrackKind) : WLState :=
  let t : Track := ⟨tk.1, pc, tk.2⟩
  let s1 := { s with received := t :: s.received }
  match t.kind with
  | .video => { s1 with bvideo := some t }
  | .audio => { s1 with baudio := some t }

/-- Creation of a fresh RTCPeerConnection followed by pcs.add(pc). -/
def addPcWL (s : WLState) : WLState :=
  { s with pcs := s.nextId :: s.pcs, nextId := s.nextId + 1 }

/-- Appending one pc.addTrack call to the ghost log. -/
def logAddWL (s : WLState) (e : Nat × SentTrack) : WLState :=
  { s with addedLog := e :: s.addedLog }

/-- The SDP exchange tail shared by both roles of the webrtc-live offer
handler: await pc.setRemoteDescription(offer), then answer and respond. -/
def wlExchange (env : LibEnv) (pc : Nat) (offer : SessionDesc) (s : WLState)
    (tracksAfterRemote : WLState → WLState) : HandlerResult × WLState :=
  match env.setRemote pc offer with
  | .error e => (.exc e, s)
  | .ok _ => answerAndRespond env pc (tracksAfterRemote s)

/-- The audio half of the viewer loop over broadcaster_tracks.items():
pc.addTrack(relay.subscribe(original)) for the stored audio track. -/
def wlViewerAudio (env : LibEnv) (pc : Nat) (offer : SessionDesc)
    (s : WLState) : HandlerResult × WLState :=
  match s.baudio with
  | none => wlExchange env pc offer s id
  | some ta =>
    match env.addTrack pc (SentTrack.relayed ta) with
    | .error e => (.exc e, s)
    | .ok _ => wlExchange env pc offer (logAddWL s (pc, SentTrack.relayed ta)) id

/-- The viewer branch of the webrtc-live offer handler: one relayed track is
added per entry of broadcaster_tracks (iteration order abstracted as video
before audio), then the SDP exchange runs. -/
def wlViewer (env : LibEnv) (pc : Nat) (offer : SessionDesc) (s : WLState) :
    HandlerResult × WLState :=
  match s.bvideo with
  | none => wlViewerAudio env pc offer s
  | some tv =>
    match env.addTrack pc (SentTrack.relayed tv) with
    | .error e => (.exc e, s)
    | .ok _ => wlViewerAudio env pc offer (logAddWL s (pc, SentTrack.relayed tv))

/-- The offer handler of the webrtc-live server, lines 14-62 of its
server.py. The broadcaster branch registers on_track, whose deliveries occur
during the successful setRemoteDescription; the viewer branch adds relayed
broadcaster tracks before the SDP exchange. -/
def wlOffer (env : LibEnv) (s : WLState) : HandlerResult × WLState :=
  match env.jsonBody with
  | .error e => (.exc e, s)
  | .ok params =>
    match getKey params "sdp" with
    | .error e => (.exc e, s)
    | .ok osdp =>
      match getKey params "type" with
      | .error e => (.exc e, s)
      | .ok otype =>
        match env.mkDesc osdp otype with
        | .error e => (.exc e, s)
        | .ok offer =>
          let role := (params.lookup "role").getD "viewer"
          let pc := s.nextId
          let s1 := addPcWL s
          if role == "broadcaster" then
            wlExchange env pc offer s1
              (fun st => env.remoteTracks.foldl (wlOnTrack pc) st)
          else
            wlViewer env pc offer s1

/-- The iceconnectionstatechange hook of the webrtc-live server: on a bad
state it awaits pc.close() and then pcs.discard(pc). The guard encodes that
the hook is a closure over an already created connection. -/
def wlIce (s : WLState) (p : Nat) (st : IceState) : WLState :=
  if p < s.nextId then
    if st.isBad then
      { s with closeCalls := p :: s.closeCalls,
               pcs := s.pcs.filter (fun q => q != p),
               cleaned := p :: s.cleaned }
    else s
  else s

/-- The ended hook registered on each broadcaster track:
broadcaster_tracks.pop(track.kind, None). The pop is keyed by the kind of
the ended track, not by its identity. -/
def wlEnded (s : WLState) (k : TrackKind) : WLState :=
  match k with
  | .video => { s with bvideo := none }
  | .audio => { s with baudio := none }

/-- The on_shutdown hook of the webrtc-live server: pc.close() for every
member of pcs, then pcs.clear(). -/
def wlShutdown (s : WLState) : WLState :=
  { s with closeCalls := s.pcs ++ s.closeCalls, pcs := [] }

/-- An invocation of one of the operations of the webrtc-live server. -/
inductive WLEvent
  | offer (env : LibEnv)
  | ice (p : Nat) (st : IceState)
  | ended (k : TrackKind)
  | shutdown

/-- One step of the webrtc-live server. -/
def wlStep (s : WLState) (e : WLEvent) : WLState :=
  match e with
  | .offer env => (wlOffer env s).2
  | .ice p st => wlIce s p st
  | .ended k => wlEnded s k
  | .shutdown => wlShutdown s

/-- Execution of a sequence of operations of the webrtc-live server. -/
def wlRun (s : WLState) (es : List WLEvent) : WLState :=
  es.foldl wlStep s

/-- A numpy image as produced by frame.to_ndarray(format="bgr24"): its shape
and an abstract pixel payload. -/
structure NdImage where
  width : Nat
  height : Nat
  data : Nat
deriving DecidableEq

/-- A PyAV video frame: image, presentation timestamp and time base. -/
structure AvFrame where
  img : NdImage
  pts : Int
  time_base : Int × Int
deriving DecidableEq

/-- Oracle for the pixel payload computed by cv2.resize with INTER_AREA
interpolation; the output shape of cv2.resize is fixed by its dsize
argument and is not part of the oracle. -/
structure CvEnv where
  interArea : NdImage → Nat → Nat → Nat

/-- cv2.resize(img, (w, h), interpolation=cv2.INTER_AREA): the result has
width w and height h, with payload given by the interpolation oracle. -/
def cvResize (env : CvEnv) (img : NdImage) (w h : Nat) : NdImage :=
  { width := w, height := h, data := env.interArea img w h }

/-- The DownscaleTrack class of the Webcam Screen server: a video track
wrapping a source track with a target width and height. -/
structure DownscaleTrack where
  source : Track
  w : Nat
  h : Nat
deriving DecidableEq

/-- DownscaleTrack.recv, lines 23-30 of the Webcam Screen server.py, applied
to the frame obtained from the source track: convert to an ndarray, resize
to (self.w, self.h), rebuild a frame and copy pts and time_base over. -/
def DownscaleTrack.recv (env : CvEnv) (t : DownscaleTrack) (frame : AvFrame) :
    AvFrame :=
  let img := frame.img
  let resized := cvResize env img t.w t.h
  let new_frame : AvFrame :=
    { img := resized, pts := frame.pts, time_base := frame.time_base }
  new_frame

/-- The publisher track cache slot of a given kind in the Webcam Screen
server state. -/
def wsSlot (s : WSState) (k : TrackKind) : Option Track :=
  match k with
  | .video => s.publisher_video
  | .audio => s.publisher_audio

/-- The broadcaster_tracks entry of a given kind in the webrtc-live server
state. -/
def wlSlot (s : WLState) (k : TrackKind) : Option Track :=
  match k with
  | .video => s.bvideo
  | .audio => s.baudio

/-- The most recently received track of a given kind in a ghost log ordered
most recent first. -/
def firstOfKind (l : List Track) (k : TrackKind) : Option Track :=
  l.find? (fun t => t.kind == k)

/-- Hypothesis bundle stating that the library accepts the posted body as a
remote offer for connection `pc` and completes the SDP exchange, ending with
local description `d`. -/
def RunsClean (env : LibEnv) (pc : Nat) (params : List (String × String))
    (d : SessionDesc) : Prop :=
  env.jsonBody = Except.ok params ∧
  ∃ osdp otype offer ans,
    params.lookup "sdp" = some osdp ∧ params.lookup "type" = some otype ∧
    env.mkDesc osdp otype = Except.ok offer ∧
    env.setRemote pc offer = Except.ok () ∧
    env.createAnswer pc = Except.ok ans ∧
    env.setLocal pc ans = Except.ok d

/-- An exception value raised by one of the library calls of the oracle, or
a KeyError from the dict subscripts of the handler; a handler that surfaces
exceptions untouched can only end in one of these. -/
def raisedBy (env : LibEnv) (e : Exc) : Prop :=
  env.jsonBody = Except.error e
  ∨ (∃ k, e = Exc.keyError k)
  ∨ (∃ a b, env.mkDesc a b = Except.error e)
  ∨ (∃ p d, env.setRemote p d = Except.error e)
  ∨ (∃ p, env.createAnswer p = Except.error e)
  ∨ (∃ p d, env.setLocal p d = Except.error e)
  ∨ (∃ p t, env.addTrack p t = Except.error e)

/-- A response whose HTTP status signals an error. -/
def isErrorResponse : HandlerResult → Bool
  | .resp st _ => 400 ≤ st
  | .exc _ => false

/-- The registry part of the claimed invariant: every member of pcs was
created by a handler and its cleanup hook has not run. -/
def pcsOk (s : WSState) : Prop :=
  ∀ p ∈ s.pcs, p < s.nextId ∧ p ∉ s.cleaned

/-- Ghost sanity: every cleaned connection was created. -/
def cleanedOk (s : WSState) : Prop :=
  ∀ p ∈ s.cleaned, p < s.nextId

/-- The track part of the amended invariant: a non-empty slot holds the most
recently received publisher track of its kind. -/
def slotOk (s : WSState) : Prop :=
  (∀ t, s.publisher_video = some t → firstOfKind s.received .video = some t)
  ∧ (∀ t, s.publisher_audio = some t → firstOfKind s.received .audio = some t)

/-- The amended reachable-state invariant of the Webcam Screen server. -/
def InvWS (s : WSState) : Prop :=
  pcsOk s ∧ cleanedOk s ∧ slotOk s

/-- The registry part of the claimed invariant for webrtc-live. -/
def pcsOkWL (s : WLState) : Prop :=
  ∀ p ∈ s.pcs, p < s.nextId ∧ p ∉ s.cleaned

/-- Ghost sanity for webrtc-live. -/
def cleanedOkWL (s : WLState) : Prop :=
  ∀ p ∈ s.cleaned, p < s.nextId

/-- The track part of the amended invariant for webrtc-live. -/
def slotOkWL (s : WLState) : Prop :=
  (∀ t, s.bvideo = some t → firstOfKind s.received .video = some t)
  ∧ (∀ t, s.baudio = some t → firstOfKind s.received .audio = some t)

/-- The amended reachable-state invariant of the webrtc-live server. -/
def InvWL (s : WLState) : Prop :=
  pcsOkWL s ∧ cleanedOkWL s ∧ slotOkWL s

/-- The most recent publisher connection that has not been cleaned up, read
from the ghost publisher log. -/
def mostRecentLivePub (s : WSState) : Option Nat :=
  s.pubLog.find? (fun p => !(s.cleaned.contains p))

/-- Whether a stored track belongs to the most recent publisher whose
connection has not been cleaned up. -/
def slotFromMostRecent (s : WSState) (slot : Option Track) : Bool :=
  match slot with
  | none => true
  | some t =>
    match mostRecentLivePub s with
    | some p => t.owner == p
    | none => false

/-- Executable reading of the original claimed invariant on a Webcam Screen
state: the registry holds only created, not cleaned-up connections, and each
stored track belongs to the most recent live publisher. -/
def C7claimWS (s : WSState) : Bool :=
  s.pcs.all (fun p => decide (p < s.nextId) && !(s.cleaned.contains p))
  && slotFromMostRecent s s.publisher_video
  && slotFromMostRecent s s.publisher_audio

/-- A library oracle in which every call succeeds, the body parses to the
given params and the given tracks are delivered on setRemoteDescription. -/
def okEnv (params : List (String × String)) (tracks : List (Nat × TrackKind))
    (ld : SessionDesc) : LibEnv :=
  { jsonBody := Except.ok params,
    mkDesc := fun a b => Except.ok ⟨a, b⟩,
    setRemote := fun _ _ => Except.ok (),
    remoteTracks := tracks,
    createAnswer := fun _ => Except.ok ld,
    setLocal := fun _ d => Except.ok d,
    addTrack := fun _ _ => Except.ok () }

/-- A well-formed offer body used by concrete witnesses. -/
def demoBody : List (String × String) :=
  [("sdp", "v=0 demo"), ("type", "offer")]

/-- A broadcaster offer body used by concrete witnesses. -/
def demoBodyB : List (String × String) :=
  [("sdp", "v=0 demo"), ("type", "offer"), ("role", "broadcaster")]

theorem answerAndRespond_state {σ : Type} (env : LibEnv) (pc : Nat) (s : σ) :
    (answerAndRespond env pc s).2 = s := by
  unfold answerAndRespond
  split
  · rfl
  · split <;> rfl

theorem onTrackWS_frame (pc : Nat) (s : WSState) (tk : Nat × TrackKind) :
    (onTrackWS pc s tk).pcs = s.pcs ∧
    (onTrackWS pc s tk).nextId = s.nextId ∧
    (onTrackWS pc s tk).cleaned = s.cleaned ∧
    (onTrackWS pc s tk).publisher_pc = s.publisher_pc ∧
    (onTrackWS pc s tk).pubLog = s.pubLog ∧
    (onTrackWS pc s tk).closeCalls = s.closeCalls ∧
    (onTrackWS pc s tk).addedLog = s.addedLog := by
  obtain ⟨tid, k⟩ := tk
  cases k <;> exact ⟨rfl, rfl, rfl, rfl, rfl, rfl, rfl⟩

theorem foldl_onTrackWS_frame (pc : Nat) (l : List (Nat × TrackKind)) :
    ∀ s : WSState,
    (l.foldl (onTrackWS pc) s).pcs = s.pcs ∧
    (l.foldl (onTrackWS pc) s).nextId = s.nextId ∧
    (l.foldl (onTrackWS pc) s).cleaned = s.cleaned ∧
    (l.foldl (onTrackWS pc) s).publisher_pc = s.publisher_pc ∧
    (l.foldl (onTrackWS pc) s).pubLog = s.pubLog := by
  induction l with
  | nil => exact fun s => ⟨rfl, rfl, rfl, rfl, rfl⟩
  | cons hd tl ih =>
    intro s
    have h1 := onTrackWS_frame pc s hd
    have h2 := ih (onTrackWS pc s hd)
    simp only [List.foldl_cons]
    exact ⟨h2.1.trans h1.1, h2.2.1.trans h1.2.1, h2.2.2.1.trans h1.2.2.1,
      h2.2.2.2.1.trans h1.2.2.2.1, h2.2.2.2.2.trans h1.2.2.2.2.1⟩

theorem onTrackWS_slotOk (pc : Nat) (s : WSState) (tk : Nat × TrackKind)
    (h : slotOk s) : slotOk (onTrackWS pc s tk) := by
  obtain ⟨tid, k⟩ := tk
  obtain ⟨hv, ha⟩ := h
  cases k with
  | video =>
    constructor
    · intro t ht
      simp only [onTrackWS, Option.some.injEq] at ht
      simp only [onTrackWS, firstOfKind]
      rw [List.find?_cons_of_pos]
      · rw [ht]
      · rfl
    · intro t ht
      simp only [onTrackWS] at ht
      simp only [onTrackWS, firstOfKind]
      rw [List.find?_cons_of_neg]
      · exact ha t ht
      · simp
  | audio =>
    constructor
    · intro t ht
      simp only [onTrackWS] at ht
      simp only [onTrackWS, firstOfKind]
      rw [List.find?_cons_of_neg]
      · exact hv t ht
      · simp
    · intro t ht
      simp only [onTrackWS, Option.some.injEq] at ht
      simp only [onTrackWS, firstOfKind]
      rw [List.find?_cons_of_pos]
      · rw [ht]
      · rfl

theorem foldl_onTrackWS_slotOk (pc : Nat) (l : List (Nat × TrackKind)) :
    ∀ s : WSState, slotOk s → slotOk (l.foldl (onTrackWS pc) s) := by
  induction l with
  | nil => exact fun _ h => h
  | cons hd tl ih =>
    intro s h
    exact ih (onTrackWS pc s hd) (onTrackWS_slotOk pc s hd h)

theorem wlOnTrack_frame (pc : Nat) (s : WLState) (tk : Nat × TrackKind) :
    (wlOnTrack pc s tk).pcs = s.pcs ∧
    (wlOnTrack pc s tk).nextId = s.nextId ∧
    (wlOnTrack pc s tk).cleaned = s.cleaned ∧
    (wlOnTrack pc s tk).closeCalls = s.closeCalls ∧
    (wlOnTrack pc s tk).addedLog = s.addedLog := by
  obtain ⟨tid, k⟩ := tk
  cases k <;> exact ⟨rfl, rfl, rfl, rfl, rfl⟩

theorem foldl_wlOnTrack_frame (pc : Nat) (l : List (Nat × TrackKind)) :
    ∀ s : WLState,
    (l.foldl (wlOnTrack pc) s).pcs = s.pcs ∧
    (l.foldl (wlOnTrack pc) s).nextId = s.nextId ∧
    (l.foldl (wlOnTrack pc) s).cleaned = s.cleaned := by
  induction l with
  | nil => exact fun s => ⟨rfl, rfl, rfl⟩
  | cons hd tl ih =>
    intro s
    have h1 := wlOnTrack_frame pc s hd
    have h2 := ih (wlOnTrack pc s hd)
    simp only [List.foldl_cons]
    exact ⟨h2.1.trans h1.1, h2.2.1.trans h1.2.1, h2.2.2.trans h1.2.2.1⟩

theorem wlOnTrack_slotOk (pc : Nat) (s : WLState) (tk : Nat × TrackKind)
    (h : slotOkWL s) : slotOkWL (wlOnTrack pc s tk) := by
  obtain ⟨tid, k⟩ := tk
  obtain ⟨hv, ha⟩ := h
  cases k with
  | video =>
    constructor
    · intro t ht
      simp only [wlOnTrack, Option.some.injEq] at ht
      simp only [wlOnTrack, firstOfKind]
      rw [List.find?_cons_of_pos]
      · rw [ht]
      · rfl
    · intro t ht
      simp only [wlOnTrack] at ht
      simp only [wlOnTrack, firstOfKind]
      rw [List.find?_cons_of_neg]
      · exact ha t ht
      · simp
  | audio =>
    constructor
    · intro t ht
      simp only [wlOnTrack] at ht
      simp only [wlOnTrack, firstOfKind]
      rw [List.find?_cons_of_neg]
      · exact hv t ht
      · simp
    · intro t ht
      simp only [wlOnTrack, Option.some.injEq] at ht
      simp only [wlOnTrack, firstOfKind]
      rw [List.find?_cons_of_pos]
      · rw [ht]
      · rfl

theorem foldl_wlOnTrack_slotOk (pc : Nat) (l : List (Nat × TrackKind)) :
    ∀ s : WLState, slotOkWL s → slotOkWL (l.foldl (wlOnTrack pc) s) := by
  induction l with
  | nil => exact fun _ h => h
  | cons hd tl ih =>
    intro s h
    exact ih (wlOnTrack pc s hd) (wlOnTrack_slotOk pc s hd h)

theorem InvWS_addPc (s : WSState) (h : InvWS s) : InvWS (addPc s) := by
  obtain ⟨hpcs, hcl, hslot⟩ := h
  refine ⟨?_, ?_, hslot⟩
  · intro p hp
    rcases List.mem_cons.mp hp with rfl | hp
    · refine ⟨Nat.lt_succ_self _, fun hc => ?_⟩
      exact absurd (hcl _ hc) (Nat.lt_irrefl _)
    · obtain ⟨h1, h2⟩ := hpcs p hp
      exact ⟨Nat.lt_succ_of_lt h1, h2⟩
  · intro p hp
    exact Nat.lt_succ_of_lt (hcl p hp)

theorem InvWS_foldl (pc : Nat) (l : List (Nat × TrackKind)) (s : WSState)
    (h : InvWS s) : InvWS (l.foldl (onTrackWS pc) s) := by
  obtain ⟨hpcs, hcl, hslot⟩ := h
  obtain ⟨f1, f2, f3, _, _⟩ := foldl_onTrackWS_frame pc l s
  refine ⟨?_, ?_, foldl_onTrackWS_slotOk pc l s hslot⟩
  · intro p hp
    rw [f1] at hp
    rw [f2, f3]
    exact hpcs p hp
  · intro p hp
    rw [f3] at hp
    rw [f2]
    exact hcl p hp

theorem InvWS_setPub (s : WSState) (pc : Nat) (h : InvWS s) :
    InvWS (setPub s pc) := h

theorem InvWS_logAdd (s : WSState) (e : Nat × SentTrack) (h : InvWS s) :
    InvWS (logAdd s e) := h

theorem InvWS_wsIceCore (s : WSState) (p : Nat) (hlt : p < s.nextId)
    (h : InvWS s) : InvWS (wsIceCore s p) := by
  obtain ⟨hpcs, hcl, hslot⟩ := h
  refine ⟨?_, ?_, hslot⟩
  · intro q hq
    simp only [wsIceCore, List.mem_filter, bne_iff_ne] at hq
    obtain ⟨hq1, hq2⟩ := hq
    obtain ⟨h1, h2⟩ := hpcs q hq1
    refine ⟨h1, fun hc => ?_⟩
    rcases List.mem_cons.mp hc with rfl | hc
    · exact hq2 rfl
    · exact h2 hc
  · intro q hq
    rcases List.mem_cons.mp hq with rfl | hq
    · exact hlt
    · exact hcl q hq

theorem InvWS_wsIce (s : WSState) (p : Nat) (st : IceState) (h : InvWS s) :
    InvWS (wsIce s p st) := by
  unfold wsIce
  split
  next hlt =>
    split
    next =>
      split
      next =>
        have h1 := InvWS_wsIceCore s p hlt h
        refine ⟨h1.1, h1.2.1, fun t ht => ?_, fun t ht => ?_⟩ <;>
          exact Option.noConfusion ht
      next => exact InvWS_wsIceCore s p hlt h
    next => exact h
  next => exact h

theorem InvWS_wsShutdown (s : WSState) (h : InvWS s) :
    InvWS (wsShutdown s) := h

theorem InvWL_addPcWL (s : WLState) (h : InvWL s) : InvWL (addPcWL s) := by
  obtain ⟨hpcs, hcl, hslot⟩ := h
  refine ⟨?_, ?_, hslot⟩
  · intro p hp
    rcases List.mem_cons.mp hp with rfl | hp
    · refine ⟨Nat.lt_succ_self _, fun hc => ?_⟩
      exact absurd (hcl _ hc) (Nat.lt_irrefl _)
    · obtain ⟨h1, h2⟩ := hpcs p hp
      exact ⟨Nat.lt_succ_of_lt h1, h2⟩
  · intro p hp
    exact Nat.lt_succ_of_lt (hcl p hp)

theorem InvWL_foldl (pc : Nat) (l : List (Nat × TrackKind)) (s : WLState)
    (h : InvWL s) : InvWL (l.foldl (wlOnTrack pc) s) := by
  obtain ⟨hpcs, hcl, hslot⟩ := h
  obtain ⟨f1, f2, f3⟩ := foldl_wlOnTrack_frame pc l s
  refine ⟨?_, ?_, foldl_wlOnTrack_slotOk pc l s hslot⟩
  · intro p hp
    rw [f1] at hp
    rw [f2, f3]
    exact hpcs p hp
  · intro p hp
    rw [f3] at hp
    rw [f2]
    exact hcl p hp

theorem InvWL_logAddWL (s : WLState) (e : Nat × SentTrack) (h : InvWL s) :
    InvWL (logAddWL s e) := h

theorem InvWL_wlIce (s : WLState) (p : Nat) (st : IceState) (h : InvWL s) :
    InvWL (wlIce s p st) := by
  obtain ⟨hpcs, hcl, hslot⟩ := h
  unfold wlIce
  split
  next hlt =>
    split
    next =>
      refine ⟨?_, ?_, hslot⟩
      · intro q hq
        simp only [List.mem_filter, bne_iff_ne] at hq
        obtain ⟨hq1, hq2⟩ := hq
        obtain ⟨h1, h2⟩ := hpcs q hq1
        refine ⟨h1, fun hc => ?_⟩
        rcases List.mem_cons.mp hc with rfl | hc
        · exact hq2 rfl
        · exact h2 hc
      · intro q hq
        rcases List.mem_cons.mp hq with rfl | hq
        · exact hlt
        · exact hcl q hq
    next => exact ⟨hpcs, hcl, hslot⟩
  next => exact ⟨hpcs, hcl, hslot⟩

theorem InvWL_wlEnded (s : WLState) (k : TrackKind) (h : InvWL s) :
    InvWL (wlEnded s k) := by
  obtain ⟨hpcs, hcl, hslot⟩ := h
  cases k with
  | video =>
    exact ⟨hpcs, hcl, fun t ht => Option.noConfusion ht, hslot.2⟩
  | audio =>
    exact ⟨hpcs, hcl, hslot.1, fun t ht => Option.noConfusion ht⟩

theorem InvWL_wlShutdown (s : WLState) (h : InvWL s) :
    InvWL (wlShutdown s) := by
  obtain ⟨hpcs, hcl, hslot⟩ := h
  exact ⟨fun p hp => absurd hp (List.not_mem_nil p), hcl, hslot⟩

theorem publisher_offer_state (env : LibEnv) (s : WSState) :
    (publisher_offer env s).2 = s
  ∨ (publisher_offer env s).2 = addPc s
  ∨ (publisher_offer env s).2 =
      env.remoteTracks.foldl (onTrackWS s.nextId) (addPc s)
  ∨ (publisher_offer env s).2 =
      setPub (env.remoteTracks.foldl (onTrackWS s.nextId) (addPc s)) s.nextId := by
  rcases hjb : env.jsonBody with e | params
  · exact Or.inl (by simp [publisher_offer, hjb])
  · rcases hl1 : params.lookup "sdp" with _ | osdp
    · exact Or.inl (by simp [publisher_offer, getKey, hjb, hl1])
    · rcases hl2 : params.lookup "type" with _ | otype
      · exact Or.inl (by simp [publisher_offer, getKey, hjb, hl1, hl2])
      · rcases hmk : env.mkDesc osdp otype with e | offer
        · exact Or.inl (by simp [publisher_offer, getKey, hjb, hl1, hl2, hmk])
        · rcases hsr : env.setRemote s.nextId offer with e | u
          · exact Or.inr (Or.inl
              (by simp [publisher_offer, getKey, hjb, hl1, hl2, hmk, hsr]))
          · rcases hca : env.createAnswer s.nextId with e | ans
            · exact Or.inr (Or.inr (Or.inl
                (by simp [publisher_offer, getKey, hjb, hl1, hl2, hmk, hsr, hca])))
            · rcases hsl : env.setLocal s.nextId ans with e | ld
              · exact Or.inr (Or.inr (Or.inl
                  (by simp [publisher_offer, getKey, hjb, hl1, hl2, hmk, hsr,
                    hca, hsl])))
              · exact Or.inr (Or.inr (Or.inr
                  (by simp [publisher_offer, getKey, hjb, hl1, hl2, hmk, hsr,
                    hca, hsl])))

theorem viewer_offer_state (res : Option String) (env : LibEnv) (s : WSState) :
    (viewer_offer res env s).2 = s
  ∨ (∃ l, (viewer_offer res env s).2 = { addPc s with addedLog := l }) := by
  rcases hpv : s.publisher_video with _ | v
  · exact Or.inl (by simp [viewer_offer, hpv])
  · rcases hjb : env.jsonBody with e | params
    · exact Or.inl (by simp [viewer_offer, hpv, hjb])
    · rcases hl1 : params.lookup "sdp" with _ | osdp
      · exact Or.inl (by simp [viewer_offer, getKey, hpv, hjb, hl1])
      · rcases hl2 : params.lookup "type" with _ | otype
        · exact Or.inl (by simp [viewer_offer, getKey, hpv, hjb, hl1, hl2])
        · rcases hmk : env.mkDesc osdp otype with e | offer
          · exact Or.inl (by simp [viewer_offer, getKey, hpv, hjb, hl1, hl2, hmk])
          · rcases hsr : env.setRemote s.nextId offer with e | u
            · refine Or.inr ⟨(addPc s).addedLog, ?_⟩
              simp [viewer_offer, getKey, hpv, hjb, hl1, hl2, hmk, hsr]
            · rcases hat1 : env.addTrack s.nextId
                  (SentTrack.down v (viewerSize res).1 (viewerSize res).2)
                  with e | u1
              · refine Or.inr ⟨(addPc s).addedLog, ?_⟩
                simp [viewer_offer, getKey, hpv, hjb, hl1, hl2, hmk, hsr, hat1]
              · rcases hpa : s.publisher_audio with _ | a
                · refine Or.inr ⟨(s.nextId,
                    SentTrack.down v (viewerSize res).1 (viewerSize res).2) ::
                      (addPc s).addedLog, ?_⟩
                  simp [viewer_offer, getKey, hpv, hjb, hl1, hl2, hmk, hsr,
                    hat1, hpa, answerAndRespond_state, logAdd]
                · rcases hat2 : env.addTrack s.nextId (SentTrack.plain a)
                      with e | u2
                  · refine Or.inr ⟨(s.nextId,
                      SentTrack.down v (viewerSize res).1 (viewerSize res).2) ::
                        (addPc s).addedLog, ?_⟩
                    simp [viewer_offer, getKey, hpv, hjb, hl1, hl2, hmk, hsr,
                      hat1, hpa, hat2, logAdd]
                  · refine Or.inr ⟨(s.nextId, SentTrack.plain a) ::
                      (s.nextId,
                        SentTrack.down v (viewerSize res).1 (viewerSize res).2) ::
                        (addPc s).addedLog, ?_⟩
                    simp [viewer_offer, getKey, hpv, hjb, hl1, hl2, hmk, hsr,
                      hat1, hpa, hat2, answerAndRespond_state, logAdd]

/-- A state equal to `s` except for the addTrack ghost log; used to phrase
frame lemmas about the viewer branch of the webrtc-live handler. -/
def withLog (s : WLState) (l : List (Nat × SentTrack)) : WLState :=
  { s with addedLog := l }

theorem wlExchange_state (env : LibEnv) (pc : Nat) (offer : SessionDesc)
    (s : WLState) (f : WLState → WLState) :
    (wlExchange env pc offer s f).2 = s ∨ (wlExchange env pc offer s f).2 = f s := by
  rcases hsr : env.setRemote pc offer with e | u
  · exact Or.inl (by simp [wlExchange, hsr])
  · exact Or.inr (by simp [wlExchange, hsr, answerAndRespond_state])

theorem wlViewerAudio_state (env : LibEnv) (pc : Nat) (offer : SessionDesc)
    (s : WLState) :
    ∃ l, (wlViewerAudio env pc offer s).2 = withLog s l := by
  rcases hba : s.baudio with _ | ta
  · refine ⟨s.addedLog, ?_⟩
    simp only [wlViewerAudio, hba]
    rcases wlExchange_state env pc offer s id with h | h
    · exact h
    · exact h
  · rcases hat : env.addTrack pc (SentTrack.relayed ta) with e | u
    · refine ⟨s.addedLog, ?_⟩
      simp only [wlViewerAudio, hba, hat]
      rfl
    · refine ⟨(pc, SentTrack.relayed ta) :: s.addedLog, ?_⟩
      simp only [wlViewerAudio, hba, hat]
      rcases wlExchange_state env pc offer
          (logAddWL s (pc, SentTrack.relayed ta)) id with h | h
      · exact h
      · exact h

theorem wlViewer_state (env : LibEnv) (pc : Nat) (offer : SessionDesc)
    (s : WLState) :
    ∃ l, (wlViewer env pc offer s).2 = withLog s l := by
  rcases hbv : s.bvideo with _ | tv
  · obtain ⟨l, hl⟩ := wlViewerAudio_state env pc offer s
    refine ⟨l, ?_⟩
    simp only [wlViewer, hbv]
    exact hl
  · rcases hat : env.addTrack pc (SentTrack.relayed tv) with e | u
    · refine ⟨s.addedLog, ?_⟩
      simp only [wlViewer, hbv, hat]
      rfl
    · obtain ⟨l, hl⟩ :=
        wlViewerAudio_state env pc offer (logAddWL s (pc, SentTrack.relayed tv))
      refine ⟨l, ?_⟩
      simp only [wlViewer, hbv, hat]
      exact hl

theorem wlOffer_state (env : LibEnv) (s : WLState) :
    (wlOffer env s).2 = s
  ∨ (wlOffer env s).2 = addPcWL s
  ∨ (wlOffer env s).2 = env.remoteTracks.foldl (wlOnTrack s.nextId) (addPcWL s)
  ∨ (∃ l, (wlOffer env s).2 = withLog (addPcWL s) l) := by
  rcases hjb : env.jsonBody with e | params
  · exact Or.inl (by simp [wlOffer, hjb])
  · rcases hl1 : params.lookup "sdp" with _ | osdp
    · exact Or.inl (by simp [wlOffer, getKey, hjb, hl1])
    · rcases hl2 : params.lookup "type" with _ | otype
      · exact Or.inl (by simp [wlOffer, getKey, hjb, hl1, hl2])
      · rcases hmk : env.mkDesc osdp otype with e | offer
        · exact Or.inl (by simp [wlOffer, getKey, hjb, hl1, hl2, hmk])
        · by_cases hrole : ((params.lookup "role").getD "viewer" == "broadcaster") = true
          · rcases wlExchange_state env s.nextId offer (addPcWL s)
                (fun st => env.remoteTracks.foldl (wlOnTrack s.nextId) st)
                with h | h
            · refine Or.inr (Or.inl ?_)
              simp only [wlOffer, getKey, hjb, hl1, hl2, hmk, hrole, if_true]
              exact h
            · refine Or.inr (Or.inr (Or.inl ?_))
              simp only [wlOffer, getKey, hjb, hl1, hl2, hmk, hrole, if_true]
              exact h
          · rw [Bool.not_eq_true] at hrole
            obtain ⟨l, hl⟩ := wlViewer_state env s.nextId offer (addPcWL s)
            refine Or.inr (Or.inr (Or.inr ⟨l, ?_⟩))
            simp only [wlOffer, getKey, hjb, hl1, hl2, hmk, hrole,
              Bool.false_eq_true, if_false]
            exact hl

theorem wsIce_frame (s : WSState) (q : Nat) (st : IceState) :
    ((wsIce s q st).pcs = s.pcs
      ∨ (wsIce s q st).pcs = s.pcs.filter (fun x => x != q))
    ∧ (wsIce s q st).nextId = s.nextId := by
  unfold wsIce
  split
  next =>
    split
    next =>
      split
      next => exact ⟨Or.inr rfl, rfl⟩
      next => exact ⟨Or.inr rfl, rfl⟩
    next => exact ⟨Or.inl rfl, rfl⟩
  next => exact ⟨Or.inl rfl, rfl⟩

theorem wlIce_frame (s : WLState) (q : Nat) (st : IceState) :
    ((wlIce s q st).pcs = s.pcs
      ∨ (wlIce s q st).pcs = s.pcs.filter (fun x => x != q))
    ∧ (wlIce s q st).nextId = s.nextId := by
  unfold wlIce
  split
  next =>
    split
    next => exact ⟨Or.inr rfl, rfl⟩
    next => exact ⟨Or.inl rfl, rfl⟩
  next => exact ⟨Or.inl rfl, rfl⟩

theorem wsStep_InvWS (s : WSState) (e : WSEvent) (h : InvWS s) :
    InvWS (wsStep s e) := by
  cases e with
  | pub env =>
    show InvWS (publisher_offer env s).2
    rcases publisher_offer_state env s with h1 | h1 | h1 | h1 <;> rw [h1]
    · exact h
    · exact InvWS_addPc s h
    · exact InvWS_foldl s.nextId env.remoteTracks (addPc s) (InvWS_addPc s h)
    · exact InvWS_setPub _ s.nextId
        (InvWS_foldl s.nextId env.remoteTracks (addPc s) (InvWS_addPc s h))
  | view res env =>
    show InvWS (viewer_offer res env s).2
    rcases viewer_offer_state res env s with h1 | ⟨l, h1⟩ <;> rw [h1]
    · exact h
    · exact InvWS_addPc s h
  | ice p st => exact InvWS_wsIce s p st h
  | shutdown => exact InvWS_wsShutdown s h

theorem wsRun_InvWS (es : List WSEvent) :
    ∀ s : WSState, InvWS s → InvWS (wsRun s es) := by
  induction es with
  | nil => exact fun _ h => h
  | cons hd tl ih =>
    intro s h
    exact ih (wsStep s hd) (wsStep_InvWS s hd h)

theorem wlStep_InvWL (s : WLState) (e : WLEvent) (h : InvWL s) :
    InvWL (wlStep s e) := by
  cases e with
  | offer env =>
    show InvWL (wlOffer env s).2
    rcases wlOffer_state env s with h1 | h1 | h1 | ⟨l, h1⟩ <;> rw [h1]
    · exact h
    · exact InvWL_addPcWL s h
    · exact InvWL_foldl s.nextId env.remoteTracks (addPcWL s) (InvWL_addPcWL s h)
    · exact InvWL_addPcWL s h
  | ice p st => exact InvWL_wlIce s p st h
  | ended k => exact InvWL_wlEnded s k h
  | shutdown => exact InvWL_wlShutdown s h

theorem wlRun_InvWL (es : List WLEvent) :
    ∀ s : WLState, InvWL s → InvWL (wlRun s es) := by
  induction es with
  | nil => exact fun _ h => h
  | cons hd tl ih =>
    intro s h
    exact ih (wlStep s hd) (wlStep_InvWL s hd h)

theorem InvWS_init : InvWS initWS := by
  refine ⟨?_, ?_, ?_, ?_⟩
  · intro p hp
    cases hp
  · intro p hp
    cases hp
  · intro t ht
    cases ht
  · intro t ht
    cases ht

theorem InvWL_init : InvWL initWL := by
  refine ⟨?_, ?_, ?_, ?_⟩
  · intro p hp
    cases hp
  · intro p hp
    cases hp
  · intro t ht
    cases ht
  · intro t ht
    cases ht

theorem wsStep_keeps_out (s : WSState) (e : WSEvent) (p : Nat)
    (h1 : p ∉ s.pcs) (h2 : p < s.nextId) :
    p ∉ (wsStep s e).pcs ∧ p < (wsStep s e).nextId := by
  have haddPc : p ∉ (addPc s).pcs ∧ p < (addPc s).nextId := by
    refine ⟨fun hc => ?_, Nat.lt_succ_of_lt h2⟩
    rcases List.mem_cons.mp hc with rfl | hc
    · exact Nat.lt_irrefl _ h2
    · exact h1 hc
  cases e with
  | pub env =>
    show p ∉ (publisher_offer env s).2.pcs ∧ p < (publisher_offer env s).2.nextId
    have hfr := foldl_onTrackWS_frame s.nextId env.remoteTracks (addPc s)
    rcases publisher_offer_state env s with h | h | h | h <;> rw [h]
    · exact ⟨h1, h2⟩
    · exact haddPc
    · rw [hfr.1, hfr.2.1]
      exact haddPc
    · show p ∉ (env.remoteTracks.foldl (onTrackWS s.nextId) (addPc s)).pcs
        ∧ p < (env.remoteTracks.foldl (onTrackWS s.nextId) (addPc s)).nextId
      rw [hfr.1, hfr.2.1]
      exact haddPc
  | view res env =>
    show p ∉ (viewer_offer res env s).2.pcs ∧ p < (viewer_offer res env s).2.nextId
    rcases viewer_offer_state res env s with h | ⟨l, h⟩ <;> rw [h]
    · exact ⟨h1, h2⟩
    · exact haddPc
  | ice q st =>
    show p ∉ (wsIce s q st).pcs ∧ p < (wsIce s q st).nextId
    obtain ⟨hpcs, hnid⟩ := wsIce_frame s q st
    rw [hnid]
    rcases hpcs with h | h <;> rw [h]
    · exact ⟨h1, h2⟩
    · refine ⟨fun hc => h1 (List.mem_filter.mp hc).1, h2⟩
  | shutdown => exact ⟨h1, h2⟩

theorem wsRun_keeps_out (es : List WSEvent) :
    ∀ s : WSState, ∀ p : Nat, p ∉ s.pcs → p < s.nextId →
    p ∉ (wsRun s es).pcs := by
  induction es with
  | nil => exact fun _ _ h1 _ => h1
  | cons hd tl ih =>
    intro s p h1 h2
    obtain ⟨k1, k2⟩ := wsStep_keeps_out s hd p h1 h2
    exact ih (wsStep s hd) p k1 k2

theorem wlStep_keeps_out (s : WLState) (e : WLEvent) (p : Nat)
    (h1 : p ∉ s.pcs) (h2 : p < s.nextId) :
    p ∉ (wlStep s e).pcs ∧ p < (wlStep s e).nextId := by
  have haddPc : p ∉ (addPcWL s).pcs ∧ p < (addPcWL s).nextId := by
    refine ⟨fun hc => ?_, Nat.lt_succ_of_lt h2⟩
    rcases List.mem_cons.mp hc with rfl | hc
    · exact Nat.lt_irrefl _ h2
    · exact h1 hc
  cases e with
  | offer env =>
    show p ∉ (wlOffer env s).2.pcs ∧ p < (wlOffer env s).2.nextId
    have hfr := foldl_wlOnTrack_frame s.nextId env.remoteTracks (addPcWL s)
    rcases wlOffer_state env s with h | h | h | ⟨l, h⟩ <;> rw [h]
    · exact ⟨h1, h2⟩
    · exact haddPc
    · rw [hfr.1, hfr.2.1]
      exact haddPc
    · exact haddPc
  | ice q st =>
    show p ∉ (wlIce s q st).pcs ∧ p < (wlIce s q st).nextId
    obtain ⟨hpcs, hnid⟩ := wlIce_frame s q st
    rw [hnid]
    rcases hpcs with h | h <;> rw [h]
    · exact ⟨h1, h2⟩
    · refine ⟨fun hc => h1 (List.mem_filter.mp hc).1, h2⟩
  | ended k =>
    cases k with
    | video => exact ⟨h1, h2⟩
    | audio => exact ⟨h1, h2⟩
  | shutdown =>
    exact ⟨fun hc => absurd hc (List.not_mem_nil p), h2⟩

theorem wlRun_keeps_out (es : List WLEvent) :
    ∀ s : WLState, ∀ p : Nat, p ∉ s.pcs → p < s.nextId →
    p ∉ (wlRun s es).pcs := by
  induction es with
  | nil => exact fun _ _ h1 _ => h1
  | cons hd tl ih =>
    intro s p h1 h2
    obtain ⟨k1, k2⟩ := wlStep_keeps_out s hd p h1 h2
    exact ih (wlStep s hd) p k1 k2

theorem answerAndRespond_ok {σ : Type} (env : LibEnv) (pc : Nat) (s : σ)
    (ans d : SessionDesc) (hca : env.createAnswer pc = Except.ok ans)
    (hsl : env.setLocal pc ans = Except.ok d) :
    answerAndRespond env pc s =
      (HandlerResult.resp 200 [("sdp", d.sdp), ("type", d.type)], s) := by
  simp [answerAndRespond, hca, hsl]

theorem publisher_offer_ok (env : LibEnv) (s : WSState)
    (params : List (String × String)) (d : SessionDesc)
    (h : RunsClean env s.nextId params d) :
    publisher_offer env s =
      (HandlerResult.resp 200 [("sdp", d.sdp), ("type", d.type)],
       setPub (env.remoteTracks.foldl (onTrackWS s.nextId) (addPc s)) s.nextId) := by
  obtain ⟨hjb, osdp, otype, offer, ans, hs, ht, hmk, hsr, hca, hsl⟩ := h
  simp [publisher_offer, getKey, hjb, hs, ht, hmk, hsr, hca, hsl]

theorem viewer_offer_ok (res : Option String) (env : LibEnv) (s : WSState)
    (params : List (String × String)) (d : SessionDesc) (v : Track)
    (hv : s.publisher_video = some v)
    (h : RunsClean env s.nextId params d)
    (hAdd : ∀ tr, env.addTrack s.nextId tr = Except.ok ()) :
    viewer_offer res env s =
      (HandlerResult.resp 200 [("sdp", d.sdp), ("type", d.type)],
       { addPc s with addedLog :=
          (match s.publisher_audio with
            | some a => [(s.nextId, SentTrack.plain a)]
            | none => []) ++
          [(s.nextId,
            SentTrack.down v (viewerSize res).1 (viewerSize res).2)] ++
          s.addedLog }) := by
  obtain ⟨hjb, osdp, otype, offer, ans, hs, ht, hmk, hsr, hca, hsl⟩ := h
  rcases hpa : s.publisher_audio with _ | a <;>
    simp [viewer_offer, getKey, answerAndRespond, logAdd, addPc, hv, hpa, hjb,
      hs, ht, hmk, hsr, hca, hsl, hAdd]

theorem logAddWL_bvideo (s : WLState) (e : Nat × SentTrack) :
    (logAddWL s e).bvideo = s.bvideo := rfl

theorem logAddWL_baudio (s : WLState) (e : Nat × SentTrack) :
    (logAddWL s e).baudio = s.baudio := rfl

theorem wlViewer_ok (env : LibEnv) (pc : Nat) (offer : SessionDesc)
    (s : WLState) (ans d : SessionDesc)
    (hAdd : ∀ tr, env.addTrack pc tr = Except.ok ())
    (hsr : env.setRemote pc offer = Except.ok ())
    (hca : env.createAnswer pc = Except.ok ans)
    (hsl : env.setLocal pc ans = Except.ok d) :
    wlViewer env pc offer s =
      (HandlerResult.resp 200 [("sdp", d.sdp), ("type", d.type)],
       withLog s
         ((match s.baudio with
            | some ta => [(pc, SentTrack.relayed ta)]
            | none => []) ++
          (match s.bvideo with
            | some tv => [(pc, SentTrack.relayed tv)]
            | none => []) ++
          s.addedLog)) := by
  rcases hbv : s.bvideo with _ | tv <;> rcases hba : s.baudio with _ | ta <;>
    simp only [wlViewer, wlViewerAudio, wlExchange, answerAndRespond,
      logAddWL_bvideo, logAddWL_baudio, hbv, hba, hAdd, hsr, hca, hsl,
      List.nil_append, List.append_nil, List.cons_append,
      List.singleton_append] <;> rfl

theorem wlOffer_ok (env : LibEnv) (s : WLState)
    (params : List (String × String)) (d : SessionDesc)
    (h : RunsClean env s.nextId params d)
    (hAdd : ∀ tr, env.addTrack s.nextId tr = Except.ok ()) :
    (wlOffer env s).1 =
      HandlerResult.resp 200 [("sdp", d.sdp), ("type", d.type)] := by
  obtain ⟨hjb, osdp, otype, offer, ans, hs, ht, hmk, hsr, hca, hsl⟩ := h
  by_cases hrole : ((params.lookup "role").getD "viewer" == "broadcaster") = true
  · simp only [wlOffer, getKey, hjb, hs, ht, hmk, hrole, if_true,
      wlExchange, hsr]
    rw [answerAndRespond_ok env s.nextId _ ans d hca hsl]
  · rw [Bool.not_eq_true] at hrole
    simp only [wlOffer, getKey, hjb, hs, ht, hmk, hrole, Bool.false_eq_true,
      if_false]
    rw [wlViewer_ok env s.nextId offer (addPcWL s) ans d hAdd hsr hca hsl]

theorem publisher_offer_res (env : LibEnv) (s : WSState) :
    (∃ e, (publisher_offer env s).1 = HandlerResult.exc e ∧ raisedBy env e)
  ∨ (∃ b, (publisher_offer env s).1 = HandlerResult.resp 200 b) := by
  rcases hjb : env.jsonBody with e | params
  · exact Or.inl ⟨e, by simp [publisher_offer, hjb], Or.inl hjb⟩
  · rcases hl1 : params.lookup "sdp" with _ | osdp
    · exact Or.inl ⟨Exc.keyError "sdp",
        by simp [publisher_offer, getKey, hjb, hl1],
        Or.inr (Or.inl ⟨"sdp", rfl⟩)⟩
    · rcases hl2 : params.lookup "type" with _ | otype
      · exact Or.inl ⟨Exc.keyError "type",
          by simp [publisher_offer, getKey, hjb, hl1, hl2],
          Or.inr (Or.inl ⟨"type", rfl⟩)⟩
      · rcases hmk : env.mkDesc osdp otype with e | offer
        · exact Or.inl ⟨e,
            by simp [publisher_offer, getKey, hjb, hl1, hl2, hmk],
            Or.inr (Or.inr (Or.inl ⟨osdp, otype, hmk⟩))⟩
        · rcases hsr : env.setRemote s.nextId offer with e | u
          · exact Or.inl ⟨e,
              by simp [publisher_offer, getKey, hjb, hl1, hl2, hmk, hsr],
              Or.inr (Or.inr (Or.inr (Or.inl ⟨s.nextId, offer, hsr⟩)))⟩
          · rcases hca : env.createAnswer s.nextId with e | ans
            · exact Or.inl ⟨e,
                by simp [publisher_offer, getKey, hjb, hl1, hl2, hmk, hsr, hca],
                Or.inr (Or.inr (Or.inr (Or.inr (Or.inl ⟨s.nextId, hca⟩))))⟩
            · rcases hsl : env.setLocal s.nextId ans with e | ld
              · exact Or.inl ⟨e,
                  by simp [publisher_offer, getKey, hjb, hl1, hl2, hmk, hsr,
                    hca, hsl],
                  Or.inr (Or.inr (Or.inr (Or.inr (Or.inr (Or.inl
                    ⟨s.nextId, ans, hsl⟩)))))⟩
              · exact Or.inr ⟨[("sdp", ld.sdp), ("type", ld.type)],
                  by simp [publisher_offer, getKey, hjb, hl1, hl2, hmk, hsr,
                    hca, hsl]⟩

theorem viewer_offer_res (res : Option String) (env : LibEnv) (s : WSState) :
    (∃ e, (viewer_offer res env s).1 = HandlerResult.exc e ∧ raisedBy env e)
  ∨ (∃ b, (viewer_offer res env s).1 = HandlerResult.resp 200 b)
  ∨ ((viewer_offer res env s).1 =
        HandlerResult.resp 409 [("error", "No publisher connected")]
      ∧ s.publisher_video = none) := by
  rcases hpv : s.publisher_video with _ | v
  · exact Or.inr (Or.inr ⟨by simp [viewer_offer, hpv], rfl⟩)
  · rcases hjb : env.jsonBody with e | params
    · exact Or.inl ⟨e, by simp [viewer_offer, hpv, hjb], Or.inl hjb⟩
    · rcases hl1 : params.lookup "sdp" with _ | osdp
      · exact Or.inl ⟨Exc.keyError "sdp",
          by simp [viewer_offer, getKey, hpv, hjb, hl1],
          Or.inr (Or.inl ⟨"sdp", rfl⟩)⟩
      · rcases hl2 : params.lookup "type" with _ | otype
        · exact Or.inl ⟨Exc.keyError "type",
            by simp [viewer_offer, getKey, hpv, hjb, hl1, hl2],
            Or.inr (Or.inl ⟨"type", rfl⟩)⟩
        · rcases hmk : env.mkDesc osdp otype with e | offer
          · exact Or.inl ⟨e,
              by simp [viewer_offer, getKey, hpv, hjb, hl1, hl2, hmk],
              Or.inr (Or.inr (Or.inl ⟨osdp, otype, hmk⟩))⟩
          · rcases hsr : env.setRemote s.nextId offer with e | u
            · exact Or.inl ⟨e,
                by simp [viewer_offer, getKey, hpv, hjb, hl1, hl2, hmk, hsr],
                Or.inr (Or.inr (Or.inr (Or.inl ⟨s.nextId, offer, hsr⟩)))⟩
            · rcases hat1 : env.addTrack s.nextId
                  (SentTrack.down v (viewerSize res).1 (viewerSize res).2)
                  with e | u1
              · exact Or.inl ⟨e,
                  by simp [viewer_offer, getKey, hpv, hjb, hl1, hl2, hmk, hsr,
                    hat1],
                  Or.inr (Or.inr (Or.inr (Or.inr (Or.inr (Or.inr
                    ⟨s.nextId, _, hat1⟩)))))⟩
              · rcases hpa : s.publisher_audio with _ | a
                · rcases hca : env.createAnswer s.nextId with e | ans
                  · exact Or.inl ⟨e,
                      by simp [viewer_offer, answerAndRespond, getKey, hpv,
                        hjb, hl1, hl2, hmk, hsr, hat1, hpa, hca],
                      Or.inr (Or.inr (Or.inr (Or.inr (Or.inl
                        ⟨s.nextId, hca⟩))))⟩
                  · rcases hsl : env.setLocal s.nextId ans with e | ld
                    · exact Or.inl ⟨e,
                        by simp [viewer_offer, answerAndRespond, getKey, hpv,
                          hjb, hl1, hl2, hmk, hsr, hat1, hpa, hca, hsl],
                        Or.inr (Or.inr (Or.inr (Or.inr (Or.inr (Or.inl
                          ⟨s.nextId, ans, hsl⟩)))))⟩
                    · exact Or.inr (Or.inl ⟨[("sdp", ld.sdp), ("type", ld.type)],
                        by simp [viewer_offer, answerAndRespond, getKey, hpv,
                          hjb, hl1, hl2, hmk, hsr, hat1, hpa, hca, hsl]⟩)
                · rcases hat2 : env.addTrack s.nextId (SentTrack.plain a)
                      with e | u2
                  · exact Or.inl ⟨e,
                      by simp [viewer_offer, getKey, hpv, hjb, hl1, hl2, hmk,
                        hsr, hat1, hpa, hat2],
                      Or.inr (Or.inr (Or.inr (Or.inr (Or.inr (Or.inr
                        ⟨s.nextId, _, hat2⟩)))))⟩
                  · rcases hca : env.createAnswer s.nextId with e | ans
                    · exact Or.inl ⟨e,
                        by simp [viewer_offer, answerAndRespond, getKey, hpv,
                          hjb, hl1, hl2, hmk, hsr, hat1, hpa, hat2, hca],
                        Or.inr (Or.inr (Or.inr (Or.inr (Or.inl
                          ⟨s.nextId, hca⟩))))⟩
                    · rcases hsl : env.setLocal s.nextId ans with e | ld
                      · exact Or.inl ⟨e,
                          by simp [viewer_offer, answerAndRespond, getKey, hpv,
                            hjb, hl1, hl2, hmk, hsr, hat1, hpa, hat2, hca, hsl],
                          Or.inr (Or.inr (Or.inr (Or.inr (Or.inr (Or.inl
                            ⟨s.nextId, ans, hsl⟩)))))⟩
                      · exact Or.inr (Or.inl
                          ⟨[("sdp", ld.sdp), ("type", ld.type)],
                          by simp [viewer_offer, answerAndRespond, getKey, hpv,
                            hjb, hl1, hl2, hmk, hsr, hat1, hpa, hat2, hca, hsl]⟩)

theorem wlExchange_res (env : LibEnv) (pc : Nat) (offer : SessionDesc)
    (s : WLState) (f : WLState → WLState) :
    (∃ e, (wlExchange env pc offer s f).1 = HandlerResult.exc e ∧ raisedBy env e)
  ∨ (∃ b, (wlExchange env pc offer s f).1 = HandlerResult.resp 200 b) := by
  rcases hsr : env.setRemote pc offer with e | u
  · exact Or.inl ⟨e, by simp [wlExchange, hsr],
      Or.inr (Or.inr (Or.inr (Or.inl ⟨pc, offer, hsr⟩)))⟩
  · rcases hca : env.createAnswer pc with e | ans
    · exact Or.inl ⟨e, by simp [wlExchange, answerAndRespond, hsr, hca],
        Or.inr (Or.inr (Or.inr (Or.inr (Or.inl ⟨pc, hca⟩))))⟩
    · rcases hsl : env.setLocal pc ans with e | ld
      · exact Or.inl ⟨e, by simp [wlExchange, answerAndRespond, hsr, hca, hsl],
          Or.inr (Or.inr (Or.inr (Or.inr (Or.inr (Or.inl ⟨pc, ans, hsl⟩)))))⟩
      · exact Or.inr ⟨[("sdp", ld.sdp), ("type", ld.type)],
          by simp [wlExchange, answerAndRespond, hsr, hca, hsl]⟩

theorem wlViewerAudio_res (env : LibEnv) (pc : Nat) (offer : SessionDesc)
    (s : WLState) :
    (∃ e, (wlViewerAudio env pc offer s).1 = HandlerResult.exc e
        ∧ raisedBy env e)
  ∨ (∃ b, (wlViewerAudio env pc offer s).1 = HandlerResult.resp 200 b) := by
  rcases hba : s.baudio with _ | ta
  · have h := wlExchange_res env pc offer s id
    simpa [wlViewerAudio, hba] using h
  · rcases hat : env.addTrack pc (SentTrack.relayed ta) with e | u
    · exact Or.inl ⟨e, by simp [wlViewerAudio, hba, hat],
        Or.inr (Or.inr (Or.inr (Or.inr (Or.inr (Or.inr ⟨pc, _, hat⟩)))))⟩
    · have h := wlExchange_res env pc offer
        (logAddWL s (pc, SentTrack.relayed ta)) id
      simpa [wlViewerAudio, hba, hat] using h

theorem wlViewer_res (env : LibEnv) (pc : Nat) (offer : SessionDesc)
    (s : WLState) :
    (∃ e, (wlViewer env pc offer s).1 = HandlerResult.exc e ∧ raisedBy env e)
  ∨ (∃ b, (wlViewer env pc offer s).1 = HandlerResult.resp 200 b) := by
  rcases hbv : s.bvideo with _ | tv
  · have h := wlViewerAudio_res env pc offer s
    simpa [wlViewer, hbv] using h
  · rcases hat : env.addTrack pc (SentTrack.relayed tv) with e | u
    · exact Or.inl ⟨e, by simp [wlViewer, hbv, hat],
        Or.inr (Or.inr (Or.inr (Or.inr (Or.inr (Or.inr ⟨pc, _, hat⟩)))))⟩
    · have h := wlViewerAudio_res env pc offer
        (logAddWL s (pc, SentTrack.relayed tv))
      simpa [wlViewer, hbv, hat] using h

theorem wlOffer_res (env : LibEnv) (s : WLState) :
    (∃ e, (wlOffer env s).1 = HandlerResult.exc e ∧ raisedBy env e)
  ∨ (∃ b, (wlOffer env s).1 = HandlerResult.resp 200 b) := by
  rcases hjb : env.jsonBody with e | params
  · exact Or.inl ⟨e, by simp [wlOffer, hjb], Or.inl hjb⟩
  · rcases hl1 : params.lookup "sdp" with _ | osdp
    · exact Or.inl ⟨Exc.keyError "sdp",
        by simp [wlOffer, getKey, hjb, hl1], Or.inr (Or.inl ⟨"sdp", rfl⟩)⟩
    · rcases hl2 : params.lookup "type" with _ | otype
      · exact Or.inl ⟨Exc.keyError "type",
          by simp [wlOffer, getKey, hjb, hl1, hl2],
          Or.inr (Or.inl ⟨"type", rfl⟩)⟩
      · rcases hmk : env.mkDesc osdp otype with e | offer
        · exact Or.inl ⟨e, by simp [wlOffer, getKey, hjb, hl1, hl2, hmk],
            Or.inr (Or.inr (Or.inl ⟨osdp, otype, hmk⟩))⟩
        · by_cases hrole :
            ((params.lookup "role").getD "viewer" == "broadcaster") = true
          · have h := wlExchange_res env s.nextId offer (addPcWL s)
              (fun st => env.remoteTracks.foldl (wlOnTrack s.nextId) st)
            simpa [wlOffer, getKey, hjb, hl1, hl2, hmk, hrole] using h
          · rw [Bool.not_eq_true] at hrole
            have h := wlViewer_res env s.nextId offer (addPcWL s)
            simpa [wlOffer, getKey, hjb, hl1, hl2, hmk, hrole] using h

/-- A local description produced by the library in concrete instances. -/
def ldemo : SessionDesc := ⟨"v=0 answer", "answer"⟩

/-- A demo video track as delivered by a first publisher connection. -/
def demoTrackV : Track := ⟨0, 0, TrackKind.video⟩

/-- A Webcam Screen state holding one publisher video track. -/
def demoWS : WSState :=
  { initWS with publisher_video := some demoTrackV, nextId := 1 }

/-- A Webcam Screen state with a registered connection. -/
def demoWSset : WSState := { initWS with pcs := [0], nextId := 1 }

/-- A webrtc-live state with a registered connection. -/
def demoWLset : WLState := { initWL with pcs := [0], nextId := 1 }

/-- A Webcam Screen state where connection 0 is the publisher and a second
connection exists. -/
def demoWS2 : WSState :=
  { initWS with publisher_pc := some 0, publisher_video := some demoTrackV,
                pcs := [1, 0], nextId := 2 }

/-- An oracle whose very first library call raises. -/
def envErr : LibEnv :=
  { okEnv demoBody [] ldemo with jsonBody := Except.error (Exc.libError 7 "boom") }

/-- An all-success oracle delivering one video and one audio publisher track. -/
def envPubAB : LibEnv :=
  okEnv demoBody [(0, TrackKind.video), (1, TrackKind.audio)] ldemo

/-- An all-success oracle delivering one video publisher track only. -/
def envPubV : LibEnv := okEnv demoBody [(2, TrackKind.video)] ldemo

theorem okEnv_RunsClean (params : List (String × String))
    (tracks : List (Nat × TrackKind)) (ld : SessionDesc) (pc : Nat)
    (osdp otype : String) (hs : params.lookup "sdp" = some osdp)
    (ht : params.lookup "type" = some otype) :
    RunsClean (okEnv params tracks ld) pc params ld :=
  ⟨rfl, osdp, otype, ⟨osdp, otype⟩, ld, hs, ht, rfl, rfl, rfl, rfl⟩

/-- C1: for a POST body with sdp and type fields that the library accepts as
a remote offer, each offer handler (offer in webrtc-live; publisher_offer
and, when a publisher video track is present, viewer_offer in Webcam Screen)
deserializes the offer, obtains an answer from the library, sets it as the
local description and returns a JSON response whose fields are exactly the
sdp and type fields of that local description. -/
theorem C1_offer_handlers_return_local_description
    (env1 env2 env3 : LibEnv) (s1 s2 : WSState) (s3 : WLState)
    (res : Option String)
    (p1 p2 p3 : List (String × String)) (d1 d2 d3 : SessionDesc) (v : Track)
    (h1 : RunsClean env1 s1.nextId p1 d1)
    (hv : s2.publisher_video = some v)
    (h2 : RunsClean env2 s2.nextId p2 d2)
    (hAdd2 : ∀ tr, env2.addTrack s2.nextId tr = Except.ok ())
    (h3 : RunsClean env3 s3.nextId p3 d3)
    (hAdd3 : ∀ tr, env3.addTrack s3.nextId tr = Except.ok ()) :
    (publisher_offer env1 s1).1 =
      HandlerResult.resp 200 [("sdp", d1.sdp), ("type", d1.type)]
  ∧ (viewer_offer res env2 s2).1 =
      HandlerResult.resp 200 [("sdp", d2.sdp), ("type", d2.type)]
  ∧ (wlOffer env3 s3).1 =
      HandlerResult.resp 200 [("sdp", d3.sdp), ("type", d3.type)] := by
  refine ⟨?_, ?_, ?_⟩
  · rw [publisher_offer_ok env1 s1 p1 d1 h1]
  · rw [viewer_offer_ok res env2 s2 p2 d2 v hv h2 hAdd2]
  · exact wlOffer_ok env3 s3 p3 d3 h3 hAdd3

theorem C1_witness :
    (publisher_offer (okEnv demoBody [] ldemo) initWS).1 =
      HandlerResult.resp 200 [("sdp", ldemo.sdp), ("type", ldemo.type)]
  ∧ (viewer_offer (some "720") (okEnv demoBody [] ldemo) demoWS).1 =
      HandlerResult.resp 200 [("sdp", ldemo.sdp), ("type", ldemo.type)]
  ∧ (wlOffer (okEnv demoBody [] ldemo) initWL).1 =
      HandlerResult.resp 200 [("sdp", ldemo.sdp), ("type", ldemo.type)] :=
  C1_offer_handlers_return_local_description
    (okEnv demoBody [] ldemo) (okEnv demoBody [] ldemo)
    (okEnv demoBody [] ldemo) initWS demoWS initWL (some "720")
    demoBody demoBody demoBody ldemo ldemo ldemo demoTrackV
    (okEnv_RunsClean demoBody [] ldemo initWS.nextId _ _ rfl rfl)
    rfl
    (okEnv_RunsClean demoBody [] ldemo demoWS.nextId _ _ rfl rfl)
    (fun _ => rfl)
    (okEnv_RunsClean demoBody [] ldemo initWL.nextId _ _ rfl rfl)
    (fun _ => rfl)

/-- C2: an incoming publisher track overwrites the cached track of its kind
(last publisher wins) in both servers, and a viewer handled afterwards is
handed the currently stored track of each available kind: in Webcam Screen
the video wrapped in a DownscaleTrack at the requested size plus the raw
audio when present, in webrtc-live a MediaRelay subscription per stored
kind. -/
theorem C2_last_publisher_wins
    (pc tid : Nat) (k : TrackKind) (sA : WSState) (sB : WLState)
    (res : Option String) (env env2 : LibEnv)
    (params params2 : List (String × String)) (d d2 : SessionDesc)
    (s : WSState) (sl : WLState) (v : Track)
    (hv : s.publisher_video = some v)
    (h1 : RunsClean env s.nextId params d)
    (hAdd : ∀ tr, env.addTrack s.nextId tr = Except.ok ())
    (h2 : RunsClean env2 sl.nextId params2 d2)
    (hAdd2 : ∀ tr, env2.addTrack sl.nextId tr = Except.ok ())
    (hrole : params2.lookup "role" = none) :
    wsSlot (onTrackWS pc sA (tid, k)) k = some ⟨tid, pc, k⟩
  ∧ wlSlot (wlOnTrack pc sB (tid, k)) k = some ⟨tid, pc, k⟩
  ∧ (viewer_offer res env s).2.addedLog =
      (match s.publisher_audio with
        | some a => [(s.nextId, SentTrack.plain a)]
        | none => []) ++
      [(s.nextId, SentTrack.down v (viewerSize res).1 (viewerSize res).2)] ++
      s.addedLog
  ∧ (wlOffer env2 sl).2.addedLog =
      (match sl.baudio with
        | some ta => [(sl.nextId, SentTrack.relayed ta)]
        | none => []) ++
      (match sl.bvideo with
        | some tv => [(sl.nextId, SentTrack.relayed tv)]
        | none => []) ++
      sl.addedLog := by
  refine ⟨?_, ?_, ?_, ?_⟩
  · cases k <;> simp [wsSlot, onTrackWS]
  · cases k <;> simp [wlSlot, wlOnTrack]
  · rw [viewer_offer_ok res env s params d v hv h1 hAdd]
  · obtain ⟨hjb, osdp, otype, offer, ans, hs, ht, hmk, hsr, hca, hsl2⟩ := h2
    have hrb : (("viewer" == "broadcaster") = false) := by decide
    simp only [wlOffer, getKey, hjb, hs, ht, hmk, hrole, Option.getD_none,
      hrb, Bool.false_eq_true, if_false]
    rw [wlViewer_ok env2 sl.nextId offer (addPcWL sl) ans d2 hAdd2 hsr hca hsl2]
    simp [withLog, addPcWL]

theorem C2_witness :
    (viewer_offer (some "480") (okEnv demoBody [] ldemo) demoWS).2.addedLog =
      [(1, SentTrack.down demoTrackV 854 480)] :=
  ((C2_last_publisher_wins 5 9 TrackKind.video initWS initWL (some "480")
      (okEnv demoBody [] ldemo) (okEnv demoBody [] ldemo)
      demoBody demoBody ldemo ldemo demoWS initWL demoTrackV
      rfl
      (okEnv_RunsClean demoBody [] ldemo demoWS.nextId _ _ rfl rfl)
      (fun _ => rfl)
      (okEnv_RunsClean demoBody [] ldemo initWL.nextId _ _ rfl rfl)
      (fun _ => rfl)
      rfl).2.2.1).trans (by decide)

/-- C3: the on_shutdown hook invokes pc.close() on every connection that is
a member of the registry pcs at that moment, in both servers. -/
theorem C3_shutdown_closes_all (s : WSState) (sl : WLState) (p q : Nat)
    (hp : p ∈ s.pcs) (hq : q ∈ sl.pcs) :
    p ∈ (wsShutdown s).closeCalls ∧ q ∈ (wlShutdown sl).closeCalls := by
  constructor
  · show p ∈ s.pcs ++ s.closeCalls
    exact List.mem_append.mpr (Or.inl hp)
  · show q ∈ sl.pcs ++ sl.closeCalls
    exact List.mem_append.mpr (Or.inl hq)

theorem C3_witness :
    0 ∈ (wsShutdown demoWSset).closeCalls
  ∧ 0 ∈ (wlShutdown demoWLset).closeCalls :=
  C3_shutdown_closes_all demoWSset demoWLset 0 0 (by decide) (by decide)

theorem wsIce_removes (s : WSState) (p : Nat) (st : IceState)
    (hlt : p < s.nextId) (hb : st.isBad = true) :
    p ∉ (wsIce s p st).pcs
  ∧ (wsIce s p st).nextId = s.nextId
  ∧ (s.publisher_pc = some p →
      (wsIce s p st).publisher_pc = none
      ∧ (wsIce s p st).publisher_video = none
      ∧ (wsIce s p st).publisher_audio = none) := by
  unfold wsIce
  rw [if_pos hlt, hb, if_pos rfl]
  by_cases hpp : (wsIceCore s p).publisher_pc = some p
  · rw [if_pos hpp]
    refine ⟨?_, rfl, fun _ => ⟨rfl, rfl, rfl⟩⟩
    intro hc
    have hm : p ∈ s.pcs.filter (fun q => q != p) := hc
    simp [List.mem_filter] at hm
  · rw [if_neg hpp]
    refine ⟨?_, rfl, fun hsp => absurd hsp hpp⟩
    intro hc
    have hm : p ∈ s.pcs.filter (fun q => q != p) := hc
    simp [List.mem_filter] at hm

theorem wlIce_removes (s : WLState) (q : Nat) (st : IceState)
    (hlt : q < s.nextId) (hb : st.isBad = true) :
    q ∉ (wlIce s q st).pcs ∧ (wlIce s q st).nextId = s.nextId := by
  unfold wlIce
  rw [if_pos hlt, hb, if_pos rfl]
  refine ⟨?_, rfl⟩
  intro hc
  have hm : q ∈ s.pcs.filter (fun x => x != q) := hc
  simp [List.mem_filter] at hm

/-- C4: in every reachable state of either server, when the ICE connection
state of a created connection transitions to failed, disconnected or closed,
the registered cleanup hook removes that connection from pcs, in Webcam
Screen additionally clears the publisher state if the connection was the
current publisher, and from then on the connection is never again a member
of pcs under any further operations. -/
theorem C4_cleanup_removes_forever (es0 : List WSEvent) (fs0 : List WLEvent)
    (p q : Nat) (st1 st2 : IceState)
    (hb1 : st1.isBad = true) (hb2 : st2.isBad = true)
    (hp : p < (wsRun initWS es0).nextId) (hq : q < (wlRun initWL fs0).nextId) :
    p ∉ (wsIce (wsRun initWS es0) p st1).pcs
  ∧ ((wsRun initWS es0).publisher_pc = some p →
      (wsIce (wsRun initWS es0) p st1).publisher_pc = none
      ∧ (wsIce (wsRun initWS es0) p st1).publisher_video = none
      ∧ (wsIce (wsRun initWS es0) p st1).publisher_audio = none)
  ∧ (∀ es1, p ∉ (wsRun (wsIce (wsRun initWS es0) p st1) es1).pcs)
  ∧ q ∉ (wlIce (wlRun initWL fs0) q st2).pcs
  ∧ (∀ fs1, q ∉ (wlRun (wlIce (wlRun initWL fs0) q st2) fs1).pcs) := by
  have hW := wsIce_removes (wsRun initWS es0) p st1 hp hb1
  have hL := wlIce_removes (wlRun initWL fs0) q st2 hq hb2
  refine ⟨hW.1, hW.2.2, ?_, hL.1, ?_⟩
  · intro es1
    refine wsRun_keeps_out es1 _ p hW.1 ?_
    rw [hW.2.1]
    exact hp
  · intro fs1
    refine wlRun_keeps_out fs1 _ q hL.1 ?_
    rw [hL.2]
    exact hq

theorem C4_witness :
    0 ∉ (wsRun (wsIce (wsRun initWS [WSEvent.pub envPubV]) 0 IceState.failed)
        [WSEvent.pub envPubV]).pcs
  ∧ (wsIce (wsRun initWS [WSEvent.pub envPubV]) 0 IceState.failed).publisher_pc
      = none
  ∧ 0 ∉ (wlRun (wlIce (wlRun initWL [WLEvent.offer envPubV]) 0
        IceState.disconnected) [WLEvent.shutdown]).pcs :=
  have h := C4_cleanup_removes_forever [WSEvent.pub envPubV]
    [WLEvent.offer envPubV] 0 0 IceState.failed IceState.disconnected
    rfl rfl (by decide) (by decide)
  ⟨h.2.2.1 [WSEvent.pub envPubV], (h.2.1 (by decide)).1,
   h.2.2.2.2 [WLEvent.shutdown]⟩

/-- C5 counterexample: viewer_offer produces an original error response, the
409 No-publisher reply, built by the reviewed code itself rather than by the
library; the claim that no error response is produced by original code is
therefore false. -/
theorem C5_counterexample :
    isErrorResponse (viewer_offer none (okEnv demoBody [] ldemo) initWS).1
      = true
  ∧ (viewer_offer none (okEnv demoBody [] ldemo) initWS).1 =
      HandlerResult.resp 409 [("error", "No publisher connected")] := by
  constructor
  · rfl
  · rfl

/-- C5 amended: every exception raised by the wrapped library (or by the
dict subscripts of the handler) during offer handling surfaces to the HTTP
layer unchanged and untranslated, and the handlers produce no error response
of their own except for the single 409 No-publisher reply of viewer_offer,
which occurs only when no publisher video track is stored. -/
theorem C5_exceptions_propagate_unchanged (env : LibEnv) (s : WSState)
    (sl : WLState) (res : Option String) :
    (∀ e, (publisher_offer env s).1 = HandlerResult.exc e → raisedBy env e)
  ∧ (∀ e, (viewer_offer res env s).1 = HandlerResult.exc e → raisedBy env e)
  ∧ (∀ e, (wlOffer env sl).1 = HandlerResult.exc e → raisedBy env e)
  ∧ (∀ st b, (publisher_offer env s).1 = HandlerResult.resp st b → st = 200)
  ∧ (∀ st b, (wlOffer env sl).1 = HandlerResult.resp st b → st = 200)
  ∧ (∀ st b, (viewer_offer res env s).1 = HandlerResult.resp st b →
      st = 200 ∨ (st = 409 ∧ b = [("error", "No publisher connected")]
        ∧ s.publisher_video = none))
  ∧ (∀ e, env.jsonBody = Except.error e →
      (publisher_offer env s).1 = HandlerResult.exc e
      ∧ (wlOffer env sl).1 = HandlerResult.exc e) := by
  refine ⟨?_, ?_, ?_, ?_, ?_, ?_, ?_⟩
  · intro e h
    rcases publisher_offer_res env s with ⟨e1, he1, hr⟩ | ⟨b, hb⟩
    · have he := he1.symm.trans h
      injection he with he
      rw [← he]
      exact hr
    · rw [hb] at h
      exact HandlerResult.noConfusion h
  · intro e h
    rcases viewer_offer_res res env s with ⟨e1, he1, hr⟩ | ⟨b, hb⟩ | ⟨h409, _⟩
    · have he := he1.symm.trans h
      injection he with he
      rw [← he]
      exact hr
    · rw [hb] at h
      exact HandlerResult.noConfusion h
    · rw [h409] at h
      exact HandlerResult.noConfusion h
  · intro e h
    rcases wlOffer_res env sl with ⟨e1, he1, hr⟩ | ⟨b, hb⟩
    · have he := he1.symm.trans h
      injection he with he
      rw [← he]
      exact hr
    · rw [hb] at h
      exact HandlerResult.noConfusion h
  · intro st b h
    rcases publisher_offer_res env s with ⟨e1, he1, _⟩ | ⟨b1, hb1⟩
    · rw [he1] at h
      exact HandlerResult.noConfusion h
    · have he := hb1.symm.trans h
      injection he with h1 h2
      exact h1.symm
  · intro st b h
    rcases wlOffer_res env sl with ⟨e1, he1, _⟩ | ⟨b1, hb1⟩
    · rw [he1] at h
      exact HandlerResult.noConfusion h
    · have he := hb1.symm.trans h
      injection he with h1 h2
      exact h1.symm
  · intro st b h
    rcases viewer_offer_res res env s with ⟨e1, he1, _⟩ | ⟨b1, hb1⟩ | ⟨h409, hnone⟩
    · rw [he1] at h
      exact HandlerResult.noConfusion h
    · have he := hb1.symm.trans h
      injection he with h1 h2
      exact Or.inl h1.symm
    · have he := h409.symm.trans h
      injection he with h1 h2
      exact Or.inr ⟨h1.symm, h2.symm, hnone⟩
  · intro e hjb
    exact ⟨by simp [publisher_offer, hjb], by simp [wlOffer, hjb]⟩

theorem C5_witness :
    (publisher_offer envErr initWS).1 =
      HandlerResult.exc (Exc.libError 7 "boom")
  ∧ (wlOffer envErr initWL).1 = HandlerResult.exc (Exc.libError 7 "boom") :=
  (C5_exceptions_propagate_unchanged envErr initWS initWL
    none).2.2.2.2.2.2 (Exc.libError 7 "boom") rfl

/-- C6: DownscaleTrack.recv returns a frame whose dimensions are exactly the
requested width and height of the wrapper, and whose pts and time_base equal
those of the source frame; the resize step changes only the dimensions and
pixel content, never the timing metadata. -/
theorem C6_recv_resizes_keeps_timing (env : CvEnv) (t : DownscaleTrack)
    (frame : AvFrame) :
    (DownscaleTrack.recv env t frame).img.width = t.w
  ∧ (DownscaleTrack.recv env t frame).img.height = t.h
  ∧ (DownscaleTrack.recv env t frame).pts = frame.pts
  ∧ (DownscaleTrack.recv env t frame).time_base = frame.time_base :=
  ⟨rfl, rfl, rfl, rfl⟩

/-- C7 counterexample: after a publisher posting video and audio tracks is
followed by a second publisher posting only a video track, the stored audio
track still belongs to the first publisher while the most recent live
publisher is the second, so the claimed invariant fails on this reachable
state. -/
theorem C7_counterexample :
    C7claimWS (wsRun initWS [WSEvent.pub envPubAB, WSEvent.pub envPubV])
      = false := by decide

/-- C7 amended: in every reachable state of either server, the registry pcs
contains only connections created by a handler whose cleanup hook has not
run, and each stored track slot, when non-empty, holds the most recently
received publisher track of its kind. -/
theorem C7_amended_invariant :
    (∀ es, InvWS (wsRun initWS es)) ∧ (∀ fs, InvWL (wlRun initWL fs)) :=
  ⟨fun es => wsRun_InvWS es initWS InvWS_init,
   fun fs => wlRun_InvWL fs initWL InvWL_init⟩

theorem C7_witness :
    InvWS (wsRun initWS [WSEvent.pub envPubAB, WSEvent.pub envPubV])
  ∧ InvWL (wlRun initWL [WLEvent.offer envPubV]) :=
  ⟨C7_amended_invariant.1 [WSEvent.pub envPubAB, WSEvent.pub envPubV],
   C7_amended_invariant.2 [WLEvent.offer envPubV]⟩

/-- C8: viewer_offer returns status 409 with body error No publisher
connected exactly when no publisher video track is stored; in that case the
state is left entirely unchanged and the handler result does not depend on
the request body, which is never parsed. -/
theorem C8_viewer_409_iff_no_publisher (res : Option String) (env : LibEnv)
    (s : WSState) :
    (s.publisher_video = none →
      viewer_offer res env s =
        (HandlerResult.resp 409 [("error", "No publisher connected")], s))
  ∧ (∀ v, s.publisher_video = some v →
      (viewer_offer res env s).1 ≠
        HandlerResult.resp 409 [("error", "No publisher connected")]) := by
  constructor
  · intro h
    simp [viewer_offer, h]
  · intro v hv hcontra
    rcases viewer_offer_res res env s with ⟨e, he, _⟩ | ⟨b, hb⟩ | ⟨_, hnone⟩
    · rw [he] at hcontra
      exact HandlerResult.noConfusion hcontra
    · rw [hb] at hcontra
      injection hcontra with h1 h2
      exact absurd h1 (by decide)
    · rw [hnone] at hv
      exact Option.noConfusion hv

theorem C8_witness :
    viewer_offer none envErr initWS =
      (HandlerResult.resp 409 [("error", "No publisher connected")], initWS)
  ∧ (viewer_offer (some "720") (okEnv demoBody [] ldemo) demoWS).1 ≠
      HandlerResult.resp 409 [("error", "No publisher connected")] :=
  ⟨(C8_viewer_409_iff_no_publisher none envErr initWS).1 rfl,
   (C8_viewer_409_iff_no_publisher (some "720") (okEnv demoBody [] ldemo)
      demoWS).2 demoTrackV rfl⟩

/-- C9: the viewer resolution query parameter maps 1080 to (1920, 1080),
720 to (1280, 720), 480 to (854, 480), and any other value, including an
absent parameter, to the default (1280, 720). -/
theorem C9_resolution_mapping (r : String)
    (h1 : r ≠ "1080") (h2 : r ≠ "720") (h3 : r ≠ "480") :
    viewerSize (some "1080") = (1920, 1080)
  ∧ viewerSize (some "720") = (1280, 720)
  ∧ viewerSize (some "480") = (854, 480)
  ∧ viewerSize none = (1280, 720)
  ∧ viewerSize (some r) = (1280, 720) := by
  refine ⟨by decide, by decide, by decide, by decide, ?_⟩
  have b1 : (r == "1080") = false := beq_eq_false_iff_ne.mpr h1
  have b2 : (r == "720") = false := beq_eq_false_iff_ne.mpr h2
  have b3 : (r == "480") = false := beq_eq_false_iff_ne.mpr h3
  simp [viewerSize, sizes, List.lookup, b1, b2, b3]

theorem C9_witness : viewerSize (some "999") = (1280, 720) :=
  (C9_resolution_mapping "999" (by decide) (by decide) (by decide)).2.2.2.2

/-- C10: the Webcam Screen ICE cleanup hook clears publisher_pc,
publisher_video and publisher_audio exactly when the failing connection is
identically the stored publisher_pc; a stale publisher connection failing
leaves the current publisher state untouched, only its own registry entry
being discarded. -/
theorem C10_stale_publisher_cleanup_framed (s : WSState) (p : Nat)
    (st : IceState) (hb : st.isBad = true) (hp : p < s.nextId) :
    (s.publisher_pc = some p →
      (wsIce s p st).publisher_pc = none
      ∧ (wsIce s p st).publisher_video = none
      ∧ (wsIce s p st).publisher_audio = none)
  ∧ (s.publisher_pc ≠ some p →
      (wsIce s p st).publisher_pc = s.publisher_pc
      ∧ (wsIce s p st).publisher_video = s.publisher_video
      ∧ (wsIce s p st).publisher_audio = s.publisher_audio
      ∧ (wsIce s p st).pcs = s.pcs.filter (fun q => q != p)) := by
  unfold wsIce
  rw [if_pos hp, hb, if_pos rfl]
  by_cases hpp : (wsIceCore s p).publisher_pc = some p
  · rw [if_pos hpp]
    exact ⟨fun _ => ⟨rfl, rfl, rfl⟩, fun hne => absurd hpp hne⟩
  · rw [if_neg hpp]
    exact ⟨fun hsp => absurd hsp hpp, fun _ => ⟨rfl, rfl, rfl, rfl⟩⟩

theorem C10_witness :
    (wsIce demoWS2 1 IceState.failed).publisher_video
      = demoWS2.publisher_video
  ∧ (wsIce demoWS2 0 IceState.closed).publisher_video = none :=
  ⟨((C10_stale_publisher_cleanup_framed demoWS2 1 IceState.failed rfl
      (by decide)).2 (by decide)).2.1,
   ((C10_stale_publisher_cleanup_framed demoWS2 0 IceState.closed rfl
      (by decide)).1 (by decide)).2.1⟩
